import Mathlib

/-!
Verification of the art-tauri overlay and settings frontend

Shallow embedding of the two Svelte components of the repository:

* `src/src/lib/components/ArtOverlay.svelte` — the artwork buffer
  controller (displayed/pending slots, decode-complete promotion, the
  `shown` reveal latch with its 3000 ms safety timeout, the 4000 ms
  info-bar debounce, and the retrying initial load).
* `src/src/lib/components/SettingsPanel.svelte` — the hotkey recorder
  (key-event normalization to a Tauri accelerator string, listener
  lifecycle of `startRecording`, and `saveHotkey`).

JavaScript timers (`setTimeout` / `clearTimeout`) are modelled by a list
of live timer entries carrying a numeric handle allocated from a
counter, the timer kind (which call site armed it) and the duration in
milliseconds that the source passes.  Object identity of artwork
payloads (the `!==` comparison in the render guard) is modelled by
tagging every artwork occurrence with an allocation number: each
delivered payload is a fresh object, hence a fresh tag.
-/

/-- The `Artwork` interface of `src/src/lib/types.ts`, field for field. -/
structure Artwork where
  id : String
  title : String
  artist : String
  date : String
  medium : String
  source : String
  image_base64 : String
deriving DecidableEq

/-- An artwork value together with its object reference (allocation
tag): the render guard of `ArtOverlay.svelte` compares
`nextArtwork !== displayedArtwork` by reference, not by value. -/
structure RefArt where
  ref : Nat
  art : Artwork
deriving DecidableEq

/-- Which call site armed a timer: the 3000 ms safety timeout, the
4000 ms info-bar debounce, the 200 ms retry backoff sleep inside
`loadArtwork`, or the 2000 ms saved-indicator auto-clear of
`SettingsPanel.svelte`. -/
inductive TimerKind where
  | safety
  | infoBar
  | retrySleep
  | savedClear
deriving DecidableEq

/-- A live (armed, not yet fired, not yet cleared) `setTimeout` timer:
its handle, the call site that armed it, and the duration in ms that
the source passes to `setTimeout`. -/
structure TimerEntry where
  id : Nat
  kind : TimerKind
  ms : Nat
deriving DecidableEq

/-! ## SettingsPanel.svelte: key normalization and the hotkey recorder -/

/-- The fields of a DOM `KeyboardEvent` that
`SettingsPanel.svelte`'s `onKeyDown` reads. -/
structure KeyEvent where
  key : String
  ctrlKey : Bool
  metaKey : Bool
  shiftKey : Bool
  altKey : Bool
deriving DecidableEq

/-- JavaScript's `String.prototype.toUpperCase`, modelled
characterwise: every character of the string is upper-cased. -/
def toUpperStr (s : String) : String := ⟨s.data.map Char.toUpper⟩

/-- The accelerator normalization inside `onKeyDown` of
`SettingsPanel.svelte` (lines 25–40): `none` models the early
`return` on a bare modifier key; otherwise the modifier parts are
pushed in the order `CmdOrCtrl` (when `metaKey || ctrlKey`), `Shift`,
`Alt`, the terminal key is mapped (`" "` to `"Space"`, a
single-character key to its upper case, anything else unchanged) and
the parts are joined with `"+"`. -/
def normalizeKey (e : KeyEvent) : Option String :=
  if e.key ∈ ["Control", "Shift", "Alt", "Meta"] then
    none
  else
    let parts : List String :=
      (if e.metaKey || e.ctrlKey then ["CmdOrCtrl"] else [])
        ++ (if e.shiftKey then ["Shift"] else [])
        ++ (if e.altKey then ["Alt"] else [])
    let key :=
      if e.key = " " then "Space"
      else if e.key.length = 1 then toUpperStr e.key
      else e.key
    some (String.intercalate "+" (parts ++ [key]))

/-- The Accelerator Normalizer exactly as the specification words it:
skip when the key is one of the modifier identifiers Control, Shift,
Alt, Meta; otherwise `CmdOrCtrl` if ctrl or meta held, then `Shift` if
held, then `Alt` if held, then the mapped terminal key (space to
`Space`, a single character to its upper-cased form, everything else
unchanged), joined with `+`.  Stated separately from `normalizeKey`
so that agreement of code and specification is a theorem. -/
def normalizeKeySpec (e : KeyEvent) : Option String :=
  if e.key = "Control" ∨ e.key = "Shift" ∨ e.key = "Alt" ∨ e.key = "Meta" then
    none
  else
    let mods : List String :=
      (if e.ctrlKey || e.metaKey then ["CmdOrCtrl"] else [])
        ++ (if e.shiftKey then ["Shift"] else [])
        ++ (if e.altKey then ["Alt"] else [])
    let terminal :=
      if e.key = " " then "Space"
      else if e.key.length = 1 then toUpperStr e.key
      else e.key
    some (String.intercalate "+" (mods ++ [terminal]))

/-- State of `SettingsPanel.svelte`: the four `$state` variables, plus
the number of currently attached `keydown` listeners (each call to
`startRecording` creates a fresh `onKeyDown` closure and attaches it
with `window.addEventListener`), and the timer bookkeeping for the
saved-indicator auto-clear. -/
structure SettingsState where
  hotkey : String
  recording : Bool
  saved : Bool
  error : String
  keyListeners : Nat
  liveTimers : List TimerEntry
  nextTimerId : Nat
deriving DecidableEq

/-- Initial state of `SettingsPanel.svelte` (`$state("")`,
`$state(false)`, `$state(false)`, `$state("")`; no listener attached,
no timer armed). -/
def initSettings : SettingsState :=
  { hotkey := "", recording := false, saved := false, error := ""
    keyListeners := 0, liveTimers := [], nextTimerId := 0 }

/-- Source `startRecording` (lines 17–46): sets `recording = true`, clears
`error` and `saved`, and attaches a freshly created `onKeyDown`
closure with `window.addEventListener` — `addEventListener` only
deduplicates identical function references, and every call creates a
new closure, so the listener count grows by one. -/
def startRecording (s : SettingsState) : SettingsState :=
  { s with recording := true, error := "", saved := false
           keyListeners := s.keyListeners + 1 }

/-- A `keydown` arriving while listeners are attached: every attached
`onKeyDown` closure runs.  On a bare modifier key each returns early
(no state change, listeners stay attached).  On a qualifying key each
closure assigns the same normalized accelerator to `hotkey`, sets
`recording = false` and removes itself, so afterwards no listener is
attached.  With no listener attached the event does nothing. -/
def recorderKeyDown (s : SettingsState) (e : KeyEvent) : SettingsState :=
  if s.keyListeners = 0 then s
  else
    match normalizeKey e with
    | none => s
    | some acc =>
        { s with hotkey := acc, recording := false, keyListeners := 0 }

/-- Component `SettingsPanel.svelte` registers no teardown callback (no
`onDestroy`, no `$effect` cleanup): unmounting the component changes
neither the attached listeners nor the armed timers. -/
def settingsTeardown (s : SettingsState) : SettingsState := s

/-- Arming a `setTimeout` in the settings panel: returns the fresh
handle and the updated state. -/
def settingsSetTimeout (k : TimerKind) (ms : Nat) (s : SettingsState) :
    Nat × SettingsState :=
  (s.nextTimerId,
   { s with liveTimers := s.liveTimers ++ [⟨s.nextTimerId, k, ms⟩]
            nextTimerId := s.nextTimerId + 1 })

/-- Outcome of the awaited `invoke("set_hotkey", { hotkey })`. -/
inductive SaveResult where
  | ok
  | error (msg : String)
deriving DecidableEq

/-- Source `saveHotkey` (lines 48–57): on success sets `saved = true`,
clears `error`, and arms `setTimeout(() => (saved = false), 2000)`
(the handle is not stored anywhere); on rejection only assigns
`error = String(e)`. -/
def saveHotkey (s : SettingsState) : SaveResult → SettingsState
  | .ok =>
      (settingsSetTimeout .savedClear 2000
        { s with saved := true, error := "" }).2
  | .error msg => { s with error := msg }

/-- A settings-panel timer with handle `h` fires: it is removed from
the live list and its callback runs — the saved-indicator auto-clear
callback is `() => (saved = false)`.  A handle that is not live is a
no-op. -/
def settingsFireTimer (s : SettingsState) (h : Nat) : SettingsState :=
  match s.liveTimers.find? (fun e => e.id = h) with
  | none => s
  | some entry =>
      let s' := { s with liveTimers := s.liveTimers.filter (fun e => e.id ≠ h) }
      match entry.kind with
      | .savedClear => { s' with saved := false }
      | _ => s'

/-! ## ArtOverlay.svelte: the artwork buffer controller -/

/-- State of `ArtOverlay.svelte`: the `$state` variables
`displayedArtwork`, `nextArtwork`, `showInfo`, `loading`, the plain
variables `infoTimer` and `shown`, the `safetyTimeout` handle held by
the `$effect` closure, a count of `invoke("overlay_ready")` calls,
and the bookkeeping for object references (`nextRef`) and timers
(`liveTimers`, `nextTimerId`). -/
structure OverlayState where
  displayedArtwork : Option RefArt
  nextArtwork : Option RefArt
  showInfo : Bool
  infoTimer : Option Nat
  loading : Bool
  shown : Bool
  safetyHandle : Option Nat
  readyCalls : Nat
  nextRef : Nat
  liveTimers : List TimerEntry
  nextTimerId : Nat
deriving DecidableEq

/-- Call `setTimeout(cb, ms)` at a call site of kind `k`: allocates a fresh
handle, appends a live entry, returns the handle with the new state. -/
def overlaySetTimeout (k : TimerKind) (ms : Nat) (s : OverlayState) :
    Nat × OverlayState :=
  (s.nextTimerId,
   { s with liveTimers := s.liveTimers ++ [⟨s.nextTimerId, k, ms⟩]
            nextTimerId := s.nextTimerId + 1 })

/-- Call `clearTimeout(h)`: removes the live entry with handle `h`
(a no-op when none is live, as for an already-fired timer). -/
def overlayClearTimeout (h : Nat) (s : OverlayState) : OverlayState :=
  { s with liveTimers := s.liveTimers.filter (fun e => e.id ≠ h) }

/-- Source `onImageLoaded` (lines 16–26): promotes the current `nextArtwork`
to `displayedArtwork`, clears `nextArtwork`, sets `loading = false`;
then, if the `shown` latch is still false, sets it and calls
`invoke("overlay_ready")`. -/
def onImageLoaded (s : OverlayState) : OverlayState :=
  let s1 := { s with displayedArtwork := s.nextArtwork
                     nextArtwork := none
                     loading := false }
  if s1.shown then s1
  else { s1 with shown := true, readyCalls := s1.readyCalls + 1 }

/-- Source `resetInfoTimer` (lines 28–34): `showInfo = true`, clear any
previously armed info timer, arm `setTimeout(..., 4000)` and remember
its handle in `infoTimer`. -/
def resetInfoTimer (s : OverlayState) : OverlayState :=
  let s1 := { s with showInfo := true }
  let s2 := match s1.infoTimer with
    | some h => overlayClearTimeout h s1
    | none => s1
  let p := overlaySetTimeout .infoBar 4000 s2
  { p.2 with infoTimer := some p.1 }

/-- Shared body of the `artwork-changed` listener (lines 37–40) and
the success branch of `loadArtwork` (lines 47–51): store the freshly
delivered payload in `nextArtwork` (a new object, hence a new
reference tag) and reset the info-bar timer.  `displayedArtwork` is
not touched. -/
def receiveArtwork (a : Artwork) (s : OverlayState) : OverlayState :=
  resetInfoTimer
    { s with nextArtwork := some ⟨s.nextRef, a⟩, nextRef := s.nextRef + 1 }

/-- The render guard of the next-image element (lines 109–116):
`{#if nextArtwork && nextArtwork !== displayedArtwork}` — `!==` is
reference inequality.  Only while this holds is the `next` image
element mounted, so only then can its `onload` (decode-complete)
fire. -/
def nextImageRendered (s : OverlayState) : Bool :=
  match s.nextArtwork, s.displayedArtwork with
  | some n, some d => n.ref ≠ d.ref
  | some _, none => true
  | none, _ => false

/-- The callback of a fired overlay timer with handle `h`: the entry
leaves the live list and its callback runs.  The info-bar callback is
`() => (showInfo = false)`; the safety callback (lines 87–92) is
`if (!shown) { shown = true; invoke("overlay_ready"); }`; the retry
sleep's callback only resolves the awaited promise.  A handle that is
not live is a no-op. -/
def overlayFireTimer (s : OverlayState) (h : Nat) : OverlayState :=
  match s.liveTimers.find? (fun e => e.id = h) with
  | none => s
  | some entry =>
      let s' := { s with liveTimers := s.liveTimers.filter (fun e => e.id ≠ h) }
      match entry.kind with
      | .infoBar => { s' with showInfo := false }
      | .safety =>
          if s'.shown then s'
          else { s' with shown := true, readyCalls := s'.readyCalls + 1 }
      | _ => s'

/-- The events the mounted overlay reacts to: a pushed
`artwork-changed` notification, the `onload` of the next-image
element, the safety timer firing, the info-bar timer firing, pointer
movement, and the navigation keys (lines 62–77: ArrowRight/Space set
`loading = true` and invoke `next_artwork`; ArrowLeft sets
`loading = true` and invokes `prev_artwork`; Escape only invokes
`dismiss_overlays`). -/
inductive Ev where
  | notify (a : Artwork)
  | imageLoaded
  | safetyFire
  | infoFire
  | mouseMove
  | keyNext
  | keyPrev
  | keyEscape
deriving DecidableEq

/-- Is this event an `artwork-changed` notification? -/
def Ev.isNotify : Ev → Bool
  | .notify _ => true
  | _ => false

/-- One event step of the mounted overlay.  `imageLoaded` can only be
delivered while the next-image element is rendered; the two timer
events fire the timer whose handle the component holds (a stale or
absent handle is a no-op). -/
def stepEv (s : OverlayState) : Ev → OverlayState
  | .notify a => receiveArtwork a s
  | .imageLoaded => if nextImageRendered s then onImageLoaded s else s
  | .safetyFire =>
      match s.safetyHandle with
      | some h => overlayFireTimer s h
      | none => s
  | .infoFire =>
      match s.infoTimer with
      | some h => overlayFireTimer s h
      | none => s
  | .mouseMove => resetInfoTimer s
  | .keyNext => { s with loading := true }
  | .keyPrev => { s with loading := true }
  | .keyEscape => s

/-- Run a sequence of events. -/
def runEv (s : OverlayState) (es : List Ev) : OverlayState :=
  es.foldl stepEv s

/-- The component's initial bindings: `displayedArtwork = null`,
`nextArtwork = null`, `showInfo = true`, `infoTimer = null`,
`loading = true`, `shown = false`; nothing allocated yet. -/
def initOverlay : OverlayState :=
  { displayedArtwork := none, nextArtwork := none, showInfo := true
    infoTimer := none, loading := true, shown := false
    safetyHandle := none, readyCalls := 0, nextRef := 0
    liveTimers := [], nextTimerId := 0 }

/-- The `$effect` body at mount (lines 36–92): registers the
listeners, starts `loadArtwork`, and arms the safety timeout
`setTimeout(..., 3000)`, keeping its handle for the cleanup. -/
def mountOverlay (s : OverlayState) : OverlayState :=
  let p := overlaySetTimeout .safety 3000 s
  { p.2 with safetyHandle := some p.1 }

/-- The overlay state right after mount. -/
def boot : OverlayState := mountOverlay initOverlay

/-- The `$effect` cleanup (lines 94–100): unlisten, remove the two
window listeners, `if (infoTimer) clearTimeout(infoTimer)`, and
`clearTimeout(safetyTimeout)`.  No other timer handle is in scope
here — in particular not the retry sleep's. -/
def overlayCleanup (s : OverlayState) : OverlayState :=
  let s1 := match s.infoTimer with
    | some h => overlayClearTimeout h s
    | none => s
  match s1.safetyHandle with
  | some h => overlayClearTimeout h s1
  | none => s1

/-! ## loadArtwork: the retrying initial fetch -/

/-- Outcome of one awaited `invoke("get_current_artwork")`:
the promise rejects (`failure`, caught and logged by the source), or
it resolves with `null` or with an artwork. -/
inductive FetchResult where
  | failure
  | value (a : Option Artwork)
deriving DecidableEq

/-- What an attempt's outcome contributes to control flow: only a
resolved non-null artwork (`some a`) stops the loop; a rejection and
a resolved `null` both fall through to the delay-and-retry code. -/
def fetchOutcome : FetchResult → Option Artwork
  | .value (some a) => some a
  | _ => none

/-- Result of running `loadArtwork`: the final state, how many
attempts were made, and the list of inter-attempt delays (ms) that
were awaited. -/
structure LoadOutcome where
  state : OverlayState
  attemptsMade : Nat
  delays : List Nat
deriving DecidableEq

/-- The loop body of `loadArtwork` (lines 44–59).  `attempt` is the
loop counter, `remaining = retries - attempt` the number of attempts
still allowed.  A resolved artwork stores it via the same code path
as a notification (`nextArtwork = art; resetInfoTimer()`) and
returns.  Otherwise, when this was not the last attempt
(`attempt < retries - 1`), the loop awaits
`new Promise((r) => setTimeout(r, 200))` — the sleep timer is armed
and, when the flow resumes, has fired — and continues.  The `oracle`
gives attempt `i`'s outcome. -/
def loadArtworkGo (oracle : Nat → FetchResult) (attempt : Nat) :
    Nat → OverlayState → LoadOutcome
  | 0, s => ⟨s, 0, []⟩
  | remaining + 1, s =>
      match fetchOutcome (oracle attempt) with
      | some a => ⟨receiveArtwork a s, 1, []⟩
      | none =>
          if remaining = 0 then ⟨s, 1, []⟩
          else
            let p := overlaySetTimeout .retrySleep 200 s
            let s2 := overlayFireTimer p.2 p.1
            let rest := loadArtworkGo oracle (attempt + 1) remaining s2
            ⟨rest.state, rest.attemptsMade + 1, 200 :: rest.delays⟩

/-- Function `loadArtwork()` as called at mount: `retries = 3`, starting at
attempt 0. -/
def loadArtwork (oracle : Nat → FetchResult) (s : OverlayState) : LoadOutcome :=
  loadArtworkGo oracle 0 3 s

/-! ## Field-preservation lemmas for the overlay primitives -/

@[simp] lemma resetInfoTimer_displayed (s : OverlayState) :
    (resetInfoTimer s).displayedArtwork = s.displayedArtwork := by
  rcases hi : s.infoTimer with _ | h <;>
    simp [resetInfoTimer, overlayClearTimeout, overlaySetTimeout, hi]

@[simp] lemma resetInfoTimer_next (s : OverlayState) :
    (resetInfoTimer s).nextArtwork = s.nextArtwork := by
  rcases hi : s.infoTimer with _ | h <;>
    simp [resetInfoTimer, overlayClearTimeout, overlaySetTimeout, hi]

@[simp] lemma resetInfoTimer_shown (s : OverlayState) :
    (resetInfoTimer s).shown = s.shown := by
  rcases hi : s.infoTimer with _ | h <;>
    simp [resetInfoTimer, overlayClearTimeout, overlaySetTimeout, hi]

@[simp] lemma resetInfoTimer_readyCalls (s : OverlayState) :
    (resetInfoTimer s).readyCalls = s.readyCalls := by
  rcases hi : s.infoTimer with _ | h <;>
    simp [resetInfoTimer, overlayClearTimeout, overlaySetTimeout, hi]

@[simp] lemma resetInfoTimer_nextRef (s : OverlayState) :
    (resetInfoTimer s).nextRef = s.nextRef := by
  rcases hi : s.infoTimer with _ | h <;>
    simp [resetInfoTimer, overlayClearTimeout, overlaySetTimeout, hi]

@[simp] lemma resetInfoTimer_safetyHandle (s : OverlayState) :
    (resetInfoTimer s).safetyHandle = s.safetyHandle := by
  rcases hi : s.infoTimer with _ | h <;>
    simp [resetInfoTimer, overlayClearTimeout, overlaySetTimeout, hi]

@[simp] lemma resetInfoTimer_showInfo (s : OverlayState) :
    (resetInfoTimer s).showInfo = true := by
  rcases hi : s.infoTimer with _ | h <;>
    simp [resetInfoTimer, overlayClearTimeout, overlaySetTimeout, hi]

@[simp] lemma resetInfoTimer_infoTimer (s : OverlayState) :
    (resetInfoTimer s).infoTimer = some s.nextTimerId := by
  rcases hi : s.infoTimer with _ | h <;>
    simp [resetInfoTimer, overlayClearTimeout, overlaySetTimeout, hi]

@[simp] lemma resetInfoTimer_nextTimerId (s : OverlayState) :
    (resetInfoTimer s).nextTimerId = s.nextTimerId + 1 := by
  rcases hi : s.infoTimer with _ | h <;>
    simp [resetInfoTimer, overlayClearTimeout, overlaySetTimeout, hi]

@[simp] lemma receiveArtwork_next (a : Artwork) (s : OverlayState) :
    (receiveArtwork a s).nextArtwork = some ⟨s.nextRef, a⟩ := by
  simp [receiveArtwork]

@[simp] lemma receiveArtwork_displayed (a : Artwork) (s : OverlayState) :
    (receiveArtwork a s).displayedArtwork = s.displayedArtwork := by
  simp [receiveArtwork]

@[simp] lemma receiveArtwork_nextRef (a : Artwork) (s : OverlayState) :
    (receiveArtwork a s).nextRef = s.nextRef + 1 := by
  simp [receiveArtwork]

@[simp] lemma receiveArtwork_shown (a : Artwork) (s : OverlayState) :
    (receiveArtwork a s).shown = s.shown := by
  simp [receiveArtwork]

@[simp] lemma receiveArtwork_readyCalls (a : Artwork) (s : OverlayState) :
    (receiveArtwork a s).readyCalls = s.readyCalls := by
  simp [receiveArtwork]

@[simp] lemma receiveArtwork_showInfo (a : Artwork) (s : OverlayState) :
    (receiveArtwork a s).showInfo = true := by
  simp [receiveArtwork]

@[simp] lemma receiveArtwork_infoTimer (a : Artwork) (s : OverlayState) :
    (receiveArtwork a s).infoTimer = some s.nextTimerId := by
  simp [receiveArtwork]

@[simp] lemma receiveArtwork_nextTimerId (a : Artwork) (s : OverlayState) :
    (receiveArtwork a s).nextTimerId = s.nextTimerId + 1 := by
  simp [receiveArtwork]

@[simp] lemma overlayFireTimer_displayed (s : OverlayState) (h : Nat) :
    (overlayFireTimer s h).displayedArtwork = s.displayedArtwork := by
  unfold overlayFireTimer
  rcases hf : s.liveTimers.find? (fun e => e.id = h) with _ | ⟨i, k, m⟩
  · simp [hf]
  · cases k <;> simp [hf] <;> split <;> rfl

@[simp] lemma overlayFireTimer_next (s : OverlayState) (h : Nat) :
    (overlayFireTimer s h).nextArtwork = s.nextArtwork := by
  unfold overlayFireTimer
  rcases hf : s.liveTimers.find? (fun e => e.id = h) with _ | ⟨i, k, m⟩
  · simp [hf]
  · cases k <;> simp [hf] <;> split <;> rfl

@[simp] lemma overlayFireTimer_nextRef (s : OverlayState) (h : Nat) :
    (overlayFireTimer s h).nextRef = s.nextRef := by
  unfold overlayFireTimer
  rcases hf : s.liveTimers.find? (fun e => e.id = h) with _ | ⟨i, k, m⟩
  · simp [hf]
  · cases k <;> simp [hf] <;> split <;> rfl

@[simp] lemma overlayFireTimer_safetyHandle (s : OverlayState) (h : Nat) :
    (overlayFireTimer s h).safetyHandle = s.safetyHandle := by
  unfold overlayFireTimer
  rcases hf : s.liveTimers.find? (fun e => e.id = h) with _ | ⟨i, k, m⟩
  · simp [hf]
  · cases k <;> simp [hf] <;> split <;> rfl

@[simp] lemma overlayFireTimer_infoTimer (s : OverlayState) (h : Nat) :
    (overlayFireTimer s h).infoTimer = s.infoTimer := by
  unfold overlayFireTimer
  rcases hf : s.liveTimers.find? (fun e => e.id = h) with _ | ⟨i, k, m⟩
  · simp [hf]
  · cases k <;> simp [hf] <;> split <;> rfl

@[simp] lemma overlayFireTimer_nextTimerId (s : OverlayState) (h : Nat) :
    (overlayFireTimer s h).nextTimerId = s.nextTimerId := by
  unfold overlayFireTimer
  rcases hf : s.liveTimers.find? (fun e => e.id = h) with _ | ⟨i, k, m⟩
  · simp [hf]
  · cases k <;> simp [hf] <;> split <;> rfl

@[simp] lemma onImageLoaded_displayed (s : OverlayState) :
    (onImageLoaded s).displayedArtwork = s.nextArtwork := by
  cases hs : s.shown <;> simp [onImageLoaded, hs]

@[simp] lemma onImageLoaded_next (s : OverlayState) :
    (onImageLoaded s).nextArtwork = none := by
  cases hs : s.shown <;> simp [onImageLoaded, hs]

@[simp] lemma onImageLoaded_nextRef (s : OverlayState) :
    (onImageLoaded s).nextRef = s.nextRef := by
  cases hs : s.shown <;> simp [onImageLoaded, hs]

@[simp] lemma onImageLoaded_loading (s : OverlayState) :
    (onImageLoaded s).loading = false := by
  cases hs : s.shown <;> simp [onImageLoaded, hs]

@[simp] lemma onImageLoaded_shown (s : OverlayState) :
    (onImageLoaded s).shown = true := by
  cases hs : s.shown <;> simp [onImageLoaded, hs]


/-! ## Reference well-formedness and the last-notification-wins property -/

/-- Every object reference held in the two buffer slots was allocated
before the current allocation counter — true of every reachable state
and preserved by every event. -/
def wfRefs (s : OverlayState) : Prop :=
  (∀ d ∈ s.displayedArtwork, d.ref < s.nextRef) ∧
  (∀ p ∈ s.nextArtwork, p.ref < s.nextRef)

lemma stepEv_preserves_buffers (s : OverlayState) (e : Ev)
    (hn : e.isNotify = false) (hi : e ≠ .imageLoaded) :
    (stepEv s e).displayedArtwork = s.displayedArtwork ∧
      (stepEv s e).nextArtwork = s.nextArtwork ∧
      (stepEv s e).nextRef = s.nextRef := by
  cases e with
  | notify a => simp [Ev.isNotify] at hn
  | imageLoaded => exact absurd rfl hi
  | safetyFire =>
      rcases hh : s.safetyHandle with _ | h <;> simp [stepEv, hh]
  | infoFire =>
      rcases hh : s.infoTimer with _ | h <;> simp [stepEv, hh]
  | mouseMove => simp [stepEv]
  | keyNext => simp [stepEv]
  | keyPrev => simp [stepEv]
  | keyEscape => simp [stepEv]

lemma wfRefs_step (s : OverlayState) (e : Ev) (hw : wfRefs s) :
    wfRefs (stepEv s e) := by
  obtain ⟨hd, hp⟩ := hw
  cases e with
  | notify a =>
      constructor
      · intro d hdmem
        simp [stepEv] at hdmem
        have := hd d hdmem
        simp [stepEv]
        omega
      · intro p hpmem
        simp [stepEv] at hpmem
        rw [← hpmem]
        simp [stepEv]
  | imageLoaded =>
      by_cases hg : nextImageRendered s = true
      · constructor
        · intro d hdmem
          simp [stepEv, hg] at hdmem
          have := hp d hdmem
          simp [stepEv, hg]
          omega
        · intro p hpmem
          simp [stepEv, hg] at hpmem
      · simp [stepEv, Bool.not_eq_true] at hg
        simp [stepEv, hg]
        exact ⟨hd, hp⟩
  | safetyFire =>
      rcases hh : s.safetyHandle with _ | h
      · simpa [stepEv, hh] using ⟨hd, hp⟩
      · constructor
        · intro d hdmem
          simp [stepEv, hh] at hdmem ⊢
          exact hd d hdmem
        · intro p hpmem
          simp [stepEv, hh] at hpmem ⊢
          exact hp p hpmem
  | infoFire =>
      rcases hh : s.infoTimer with _ | h
      · simpa [stepEv, hh] using ⟨hd, hp⟩
      · constructor
        · intro d hdmem
          simp [stepEv, hh] at hdmem ⊢
          exact hd d hdmem
        · intro p hpmem
          simp [stepEv, hh] at hpmem ⊢
          exact hp p hpmem
  | mouseMove =>
      constructor
      · intro d hdmem
        simp [stepEv] at hdmem ⊢
        exact hd d hdmem
      · intro p hpmem
        simp [stepEv] at hpmem ⊢
        exact hp p hpmem
  | keyNext =>
      exact ⟨hd, hp⟩
  | keyPrev =>
      exact ⟨hd, hp⟩
  | keyEscape =>
      exact ⟨hd, hp⟩

lemma wfRefs_runEv (s : OverlayState) (es : List Ev) (hw : wfRefs s) :
    wfRefs (runEv s es) := by
  induction es generalizing s with
  | nil => exact hw
  | cons e rest ih =>
      exact ih (stepEv s e) (wfRefs_step s e hw)

lemma wfRefs_boot : wfRefs boot := by
  constructor <;> intro x hx <;> simp [boot, mountOverlay, overlaySetTimeout, initOverlay] at hx

/-- Once the pending slot is empty, a notification-free run never
repopulates it and never changes what is displayed. -/
lemma runEv_no_pending (mid : List Ev) (s : OverlayState)
    (hn : ∀ e ∈ mid, e.isNotify = false) (h0 : s.nextArtwork = none) :
    (runEv s mid).displayedArtwork = s.displayedArtwork ∧
      (runEv s mid).nextArtwork = none := by
  induction mid generalizing s with
  | nil => exact ⟨rfl, h0⟩
  | cons e rest ih =>
      have hne : e.isNotify = false := hn e (List.mem_cons_self e rest)
      have hrest : ∀ e' ∈ rest, e'.isNotify = false :=
        fun e' he' => hn e' (List.mem_cons_of_mem e he')
      by_cases hi : e = Ev.imageLoaded
      · subst hi
        have hg : nextImageRendered s = false := by
          simp [nextImageRendered, h0]
        have hstep : stepEv s .imageLoaded = s := by
          simp [stepEv, hg]
        simpa [runEv, hstep] using ih s hrest h0
      · obtain ⟨hd', hp', _⟩ := stepEv_preserves_buffers s e hne hi
        have := ih (stepEv s e) hrest (hp'.trans h0)
        simpa [runEv, hd'] using this

/-- While a pending artwork is set and the render guard holds, the
first decode-complete promotes exactly that pending artwork, and no
later notification-free event replaces it. -/
lemma runEv_last_wins (mid : List Ev) (s : OverlayState) (p : RefArt)
    (hn : ∀ e ∈ mid, e.isNotify = false) (hp : s.nextArtwork = some p)
    (hg : nextImageRendered s = true) (hmem : Ev.imageLoaded ∈ mid) :
    (runEv s mid).displayedArtwork = some p := by
  induction mid generalizing s with
  | nil => cases hmem
  | cons e rest ih =>
      have hne : e.isNotify = false := hn e (List.mem_cons_self e rest)
      have hrest : ∀ e' ∈ rest, e'.isNotify = false :=
        fun e' he' => hn e' (List.mem_cons_of_mem e he')
      by_cases hi : e = Ev.imageLoaded
      · subst hi
        have hstep : stepEv s .imageLoaded = onImageLoaded s := by
          simp [stepEv, hg]
        have hdisp : (onImageLoaded s).displayedArtwork = some p := by
          simp [hp]
        have hnext : (onImageLoaded s).nextArtwork = none := by simp
        have := runEv_no_pending rest (onImageLoaded s) hrest hnext
        simp only [runEv, List.foldl_cons, hstep]
        exact this.1.trans hdisp
      · have hmem' : Ev.imageLoaded ∈ rest := by
          rcases List.mem_cons.mp hmem with h | h
          · exact absurd h.symm hi
          · exact h
        obtain ⟨hd', hp', hr'⟩ := stepEv_preserves_buffers s e hne hi
        have hg' : nextImageRendered (stepEv s e) = true := by
          rcases hdisp : s.displayedArtwork with _ | d <;>
            simp [nextImageRendered, hd', hp', hp, hdisp] <;>
            rcases hdisp2 : s.displayedArtwork with _ | d2 <;>
            simp_all [nextImageRendered, hp]
        exact ih (stepEv s e) hrest (hp'.trans hp) hg' hmem'

/-- A sample artwork payload (JSON shape of `src/src/lib/types.ts`). -/
def artSample : Artwork :=
  { id := "met-437133", title := "Wheat Field with Cypresses"
    artist := "Vincent van Gogh", date := "1889", medium := "Oil on canvas"
    source := "The Met", image_base64 := "data:image/jpeg;base64,AAAA" }

/-- A second sample artwork, distinct from `artSample`. -/
def artSample2 : Artwork :=
  { id := "aic-27992", title := "A Sunday on La Grande Jatte"
    artist := "Georges Seurat", date := "1884", medium := "Oil on canvas"
    source := "Art Institute of Chicago"
    image_base64 := "data:image/jpeg;base64,BBBB" }

/-- C1: for every sequence of artwork-change notifications in which a
new notification can arrive before the previous pending artwork's
image finishes decoding, the final `displayedArtwork` equals the
artwork carried by the last notification received, never an earlier
one.  Stated over every run from mount: any prefix `pre` of events,
then the last notification `a`, then any notification-free suffix
`mid` in which at least one decode-complete is delivered — the final
displayed artwork is `a`.  A decode-complete can only be delivered
while the next-image element is rendered and always promotes the
artwork currently in `nextArtwork` (superseding a pending artwork
swaps the element's `src`, so the superseded image's decode never
surfaces as a load event and is never promoted). -/
theorem C1_last_notification_wins (pre mid : List Ev) (a : Artwork)
    (hmid : ∀ e ∈ mid, e.isNotify = false) (hload : Ev.imageLoaded ∈ mid) :
    ((runEv boot (pre ++ Ev.notify a :: mid)).displayedArtwork).map RefArt.art
      = some a := by
  have hwf : wfRefs (runEv boot pre) := wfRefs_runEv boot pre wfRefs_boot
  set s := runEv boot pre with hs
  have hsplit : runEv boot (pre ++ Ev.notify a :: mid)
      = runEv (stepEv s (Ev.notify a)) mid := by
    simp [runEv, List.foldl_append, hs]
  rw [hsplit]
  have hp : (stepEv s (Ev.notify a)).nextArtwork = some ⟨s.nextRef, a⟩ := by
    simp [stepEv]
  have hg : nextImageRendered (stepEv s (Ev.notify a)) = true := by
    rcases hdisp : s.displayedArtwork with _ | d
    · simp [nextImageRendered, hp, stepEv, hdisp]
    · have hlt : d.ref < s.nextRef := hwf.1 d (by simp [hdisp])
      simp [nextImageRendered, hp, stepEv, hdisp]
      omega
  have hfin := runEv_last_wins mid (stepEv s (Ev.notify a)) ⟨s.nextRef, a⟩
    hmid hp hg hload
  rw [hfin]
  rfl

/-- Witness for C1: a first notification (`artSample2`) is superseded
by a second (`artSample`) before any decode completes; the decode then
completes and the displayed artwork is the one of the last
notification. -/
theorem C1_witness :
    ((runEv boot ([Ev.notify artSample2]
        ++ Ev.notify artSample :: [Ev.mouseMove, Ev.imageLoaded])).displayedArtwork).map
        RefArt.art = some artSample :=
  C1_last_notification_wins [Ev.notify artSample2]
    [Ev.mouseMove, Ev.imageLoaded] artSample (by decide) (by decide)

/-! ## The reveal latch -/

@[simp] lemma onImageLoaded_readyCalls (s : OverlayState) :
    (onImageLoaded s).readyCalls
      = if s.shown then s.readyCalls else s.readyCalls + 1 := by
  cases hs : s.shown <;> simp [onImageLoaded, hs]

lemma overlayFireTimer_latch (s : OverlayState) (h : Nat) :
    ((overlayFireTimer s h).shown = s.shown ∧
      (overlayFireTimer s h).readyCalls = s.readyCalls) ∨
    (s.shown = false ∧ (overlayFireTimer s h).shown = true ∧
      (overlayFireTimer s h).readyCalls = s.readyCalls + 1) := by
  unfold overlayFireTimer
  rcases hf : s.liveTimers.find? (fun e => e.id = h) with _ | ⟨i, k, m⟩
  · left; simp [hf]
  · cases k <;> simp [hf]
    cases hs : s.shown
    · right; simp
    · left; simp

lemma latch_step (s : OverlayState) (e : Ev)
    (hinv : s.readyCalls = if s.shown then 1 else 0) :
    (stepEv s e).readyCalls = if (stepEv s e).shown then 1 else 0 := by
  cases e with
  | notify a => simpa [stepEv] using hinv
  | imageLoaded =>
      by_cases hg : nextImageRendered s = true
      · cases hs : s.shown <;> simp [stepEv, hg, hs] <;> simp [hs] at hinv <;>
          omega
      · simp [Bool.not_eq_true] at hg
        simpa [stepEv, hg] using hinv
  | safetyFire =>
      rcases hh : s.safetyHandle with _ | h
      · simpa [stepEv, hh] using hinv
      · simp only [stepEv, hh]
        rcases overlayFireTimer_latch s h with ⟨h1, h2⟩ | ⟨h0, h1, h2⟩
        · rw [h1, h2]; exact hinv
        · rw [h1, h2]
          simp [h0] at hinv
          simp [hinv]
  | infoFire =>
      rcases hh : s.infoTimer with _ | h
      · simpa [stepEv, hh] using hinv
      · simp only [stepEv, hh]
        rcases overlayFireTimer_latch s h with ⟨h1, h2⟩ | ⟨h0, h1, h2⟩
        · rw [h1, h2]; exact hinv
        · rw [h1, h2]
          simp [h0] at hinv
          simp [hinv]
  | mouseMove => simpa [stepEv] using hinv
  | keyNext => simpa [stepEv] using hinv
  | keyPrev => simpa [stepEv] using hinv
  | keyEscape => simpa [stepEv] using hinv

lemma latch_runEv (es : List Ev) (s : OverlayState)
    (hinv : s.readyCalls = if s.shown then 1 else 0) :
    (runEv s es).readyCalls = if (runEv s es).shown then 1 else 0 := by
  induction es generalizing s with
  | nil => exact hinv
  | cons e rest ih => exact ih (stepEv s e) (latch_step s e hinv)

lemma shown_step_mono (s : OverlayState) (e : Ev) (hs : s.shown = true) :
    (stepEv s e).shown = true ∧ (stepEv s e).readyCalls = s.readyCalls := by
  cases e with
  | notify a => simp [stepEv, hs]
  | imageLoaded =>
      by_cases hg : nextImageRendered s = true
      · simp [stepEv, hg, hs]
      · simp [Bool.not_eq_true] at hg
        simp [stepEv, hg, hs]
  | safetyFire =>
      rcases hh : s.safetyHandle with _ | h
      · simp [stepEv, hh, hs]
      · simp only [stepEv, hh]
        rcases overlayFireTimer_latch s h with ⟨h1, h2⟩ | ⟨h0, h1, h2⟩
        · exact ⟨h1.trans hs, h2⟩
        · rw [hs] at h0; cases h0
  | infoFire =>
      rcases hh : s.infoTimer with _ | h
      · simp [stepEv, hh, hs]
      · simp only [stepEv, hh]
        rcases overlayFireTimer_latch s h with ⟨h1, h2⟩ | ⟨h0, h1, h2⟩
        · exact ⟨h1.trans hs, h2⟩
        · rw [hs] at h0; cases h0
  | mouseMove => simp [stepEv, hs]
  | keyNext => simp [stepEv, hs]
  | keyPrev => simp [stepEv, hs]
  | keyEscape => simp [stepEv, hs]

lemma shown_runEv_mono (more : List Ev) (s : OverlayState) (hs : s.shown = true) :
    (runEv s more).shown = true ∧ (runEv s more).readyCalls = s.readyCalls := by
  induction more generalizing s with
  | nil => exact ⟨hs, rfl⟩
  | cons e rest ih =>
      obtain ⟨h1, h2⟩ := shown_step_mono s e hs
      obtain ⟨h3, h4⟩ := ih (stepEv s e) h1
      exact ⟨h3, h4.trans h2⟩

/-- C2: the `shown` latch goes from false to true at most once and
never back, `invoke("overlay_ready")` is emitted exactly when the
latch flips (so exactly once over any run in which a trigger occurs),
and the two triggers are the first decode-complete
(`onImageLoaded`) and the safety timeout, armed at mount for
3000 ms — whichever is delivered first while the latch is still
false flips it and emits the call; afterwards neither path emits
again.  Conjuncts: (1) over any run from mount, the number of
`overlay_ready` calls is 1 when `shown` holds and 0 otherwise;
(2) once `shown` is true it stays true and no further call is
emitted; (3) a decode-complete delivered while `shown` is false flips
the latch and emits the call; (4) the safety timer firing while
`shown` is false flips the latch and emits the call; (5) mount arms
exactly the 3000 ms safety timer and keeps its handle. -/
theorem C2_reveal_exactly_once (es more : List Ev) (t : OverlayState)
    (h ms : Nat) :
    ((runEv boot es).readyCalls = if (runEv boot es).shown then 1 else 0)
    ∧ ((runEv boot es).shown = true →
        (runEv (runEv boot es) more).shown = true ∧
        (runEv (runEv boot es) more).readyCalls = (runEv boot es).readyCalls)
    ∧ (t.shown = false → nextImageRendered t = true →
        (stepEv t Ev.imageLoaded).shown = true ∧
        (stepEv t Ev.imageLoaded).readyCalls = t.readyCalls + 1)
    ∧ (t.shown = false → t.safetyHandle = some h →
        t.liveTimers.find? (fun e => e.id = h) = some ⟨h, .safety, ms⟩ →
        (stepEv t Ev.safetyFire).shown = true ∧
        (stepEv t Ev.safetyFire).readyCalls = t.readyCalls + 1)
    ∧ boot.liveTimers = [⟨0, TimerKind.safety, 3000⟩]
    ∧ boot.safetyHandle = some 0 := by
  refine ⟨?_, ?_, ?_, ?_, rfl, rfl⟩
  · exact latch_runEv es boot rfl
  · intro hs
    exact shown_runEv_mono more (runEv boot es) hs
  · intro hsh hg
    simp [stepEv, hg, hsh]
  · intro hsh hh hfind
    simp only [stepEv, hh]
    unfold overlayFireTimer
    rw [hfind]
    simp [hsh]

/-- Witness for C2: a decode-complete after one notification flips
the latch with one `overlay_ready` call; a later safety fire and a
later decode change nothing; the safety-fire trigger is exercised on
the freshly mounted state. -/
theorem C2_witness :
    ((runEv boot [Ev.notify artSample, Ev.imageLoaded]).readyCalls
        = if (runEv boot [Ev.notify artSample, Ev.imageLoaded]).shown then 1
          else 0)
    ∧ ((runEv (runEv boot [Ev.notify artSample, Ev.imageLoaded])
          [Ev.safetyFire, Ev.imageLoaded]).shown = true ∧
        (runEv (runEv boot [Ev.notify artSample, Ev.imageLoaded])
          [Ev.safetyFire, Ev.imageLoaded]).readyCalls
          = (runEv boot [Ev.notify artSample, Ev.imageLoaded]).readyCalls)
    ∧ ((stepEv boot Ev.safetyFire).shown = true ∧
        (stepEv boot Ev.safetyFire).readyCalls = boot.readyCalls + 1) := by
  have H := C2_reveal_exactly_once [Ev.notify artSample, Ev.imageLoaded]
    [Ev.safetyFire, Ev.imageLoaded] boot 0 3000
  exact ⟨H.1, H.2.1 (by decide),
    H.2.2.2.1 (by decide) (by decide) (by decide)⟩

/-! ## Hotkey recorder: listener lifecycle and normalization -/

/-- Counterexample to C3: `startRecording()` attaches a freshly
created `onKeyDown` closure each time it runs and never checks
whether one is already attached, so calling it twice without an
intervening qualifying key event leaves two listeners attached —
not at most one. -/
theorem C3_counterexample :
    (startRecording (startRecording initSettings)).keyListeners = 2 := by
  rfl

/-- C3 amended: each `startRecording` call attaches one more
listener (so `n` un-completed calls leave `n` listeners attached);
one qualifying key event detaches all currently attached listeners
at once; a bare-modifier key event detaches nothing and changes
nothing; and component teardown removes no listener, because
`SettingsPanel.svelte` registers no teardown callback at all. -/
theorem C3_amended_listener_count (s : SettingsState) (e e' : KeyEvent)
    (acc : String) :
    (startRecording s).keyListeners = s.keyListeners + 1
    ∧ (normalizeKey e = some acc → s.keyListeners ≠ 0 →
        (recorderKeyDown s e).keyListeners = 0)
    ∧ (normalizeKey e' = none → recorderKeyDown s e' = s)
    ∧ settingsTeardown s = s := by
  refine ⟨rfl, ?_, ?_, rfl⟩
  · intro hacc hl
    simp [recorderKeyDown, hl, hacc]
  · intro hskip
    unfold recorderKeyDown
    split
    · rfl
    · rw [hskip]

/-- Witness for C3's amended theorem: from two pending recordings,
pressing Cmd+S detaches both listeners; a bare `Control` press
changes nothing; teardown changes nothing. -/
theorem C3_amended_witness :
    (startRecording (startRecording (startRecording initSettings))).keyListeners
        = (startRecording (startRecording initSettings)).keyListeners + 1
    ∧ (recorderKeyDown (startRecording (startRecording initSettings))
        ⟨"s", false, true, false, false⟩).keyListeners = 0
    ∧ recorderKeyDown (startRecording (startRecording initSettings))
        ⟨"Control", true, false, false, false⟩
        = startRecording (startRecording initSettings)
    ∧ settingsTeardown (startRecording (startRecording initSettings))
        = startRecording (startRecording initSettings) := by
  have H := C3_amended_listener_count (startRecording (startRecording initSettings))
    ⟨"s", false, true, false, false⟩ ⟨"Control", true, false, false, false⟩
    "CmdOrCtrl+S"
  exact ⟨H.1, H.2.1 (by decide) (by decide), H.2.2.1 (by decide), H.2.2.2⟩

/-- C4: the source normalizer agrees with the specification's
normalizer on every key-press description, and in particular maps
Cmd+S to `CmdOrCtrl+S`, Shift+Alt+ArrowUp to `Shift+Alt+ArrowUp`,
Ctrl+space to `CmdOrCtrl+Space`, and returns skip on a bare
`Control` key — in which case the recorder's state is unchanged and
the listener stays attached. -/
theorem C4_normalizer (e : KeyEvent) (s : SettingsState) :
    normalizeKey e = normalizeKeySpec e
    ∧ normalizeKey ⟨"s", false, true, false, false⟩ = some "CmdOrCtrl+S"
    ∧ normalizeKey ⟨"ArrowUp", false, false, true, true⟩
        = some "Shift+Alt+ArrowUp"
    ∧ normalizeKey ⟨" ", true, false, false, false⟩ = some "CmdOrCtrl+Space"
    ∧ normalizeKey ⟨"Control", true, false, false, false⟩ = none
    ∧ recorderKeyDown s ⟨"Control", true, false, false, false⟩ = s
    ∧ (recorderKeyDown s ⟨"Control", true, false, false, false⟩).keyListeners
        = s.keyListeners := by
  refine ⟨?_, by decide, by decide, by decide, by decide, ?_, ?_⟩
  · unfold normalizeKey normalizeKeySpec
    rw [Bool.or_comm e.metaKey e.ctrlKey]
    refine if_congr ?_ rfl rfl
    simp
  · unfold recorderKeyDown
    split
    · rfl
    · rfl
  · unfold recorderKeyDown
    split
    · rfl
    · rfl

/-! ## The retrying initial load -/

@[simp] lemma overlaySetTimeout_state_displayed (k : TimerKind) (ms : Nat)
    (s : OverlayState) :
    (overlaySetTimeout k ms s).2.displayedArtwork = s.displayedArtwork := rfl

@[simp] lemma overlaySetTimeout_state_next (k : TimerKind) (ms : Nat)
    (s : OverlayState) :
    (overlaySetTimeout k ms s).2.nextArtwork = s.nextArtwork := rfl

@[simp] lemma overlaySetTimeout_state_loading (k : TimerKind) (ms : Nat)
    (s : OverlayState) :
    (overlaySetTimeout k ms s).2.loading = s.loading := rfl

@[simp] lemma overlaySetTimeout_state_nextRef (k : TimerKind) (ms : Nat)
    (s : OverlayState) :
    (overlaySetTimeout k ms s).2.nextRef = s.nextRef := rfl

@[simp] lemma overlayFireTimer_loading (s : OverlayState) (h : Nat) :
    (overlayFireTimer s h).loading = s.loading := by
  unfold overlayFireTimer
  rcases hf : s.liveTimers.find? (fun e => e.id = h) with _ | ⟨i, k, m⟩
  · simp [hf]
  · cases k <;> simp [hf] <;> split <;> rfl

lemma loadArtworkGo_congr (o o' : Nat → FetchResult)
    (h : ∀ i, fetchOutcome (o i) = fetchOutcome (o' i)) :
    ∀ remaining attempt s,
      loadArtworkGo o attempt remaining s = loadArtworkGo o' attempt remaining s := by
  intro remaining
  induction remaining with
  | zero => intro attempt s; rfl
  | succ r ih =>
      intro attempt s
      rcases hf : fetchOutcome (o' attempt) with _ | a
      · simp [loadArtworkGo, h attempt, hf, ih]
      · simp [loadArtworkGo, h attempt, hf]

/-- C5: the initial load makes up to 3 attempts at
`get_current_artwork`, with a 200 ms delay between consecutive
attempts, stopping at the first attempt that yields an artwork — a
success populates the pending slot with that artwork and resets the
info-bar timer (`showInfo` becomes true).  Exhausting all 3 attempts
performs exactly the two 200 ms delays and leaves `displayedArtwork`,
`nextArtwork` and `loading` untouched; at mount those are `none`,
`none` and `true` (the `Empty` shape with `loading` still true), and
the overlay state carries no error field at all, so no user-visible
error can be surfaced by this path. -/
theorem C5_initial_load_retries (oracle : Nat → FetchResult)
    (s : OverlayState) (k : Nat) (a : Artwork) :
    ((∀ i, i < 3 → fetchOutcome (oracle i) = none) →
        (loadArtwork oracle s).state.displayedArtwork = s.displayedArtwork
        ∧ (loadArtwork oracle s).state.nextArtwork = s.nextArtwork
        ∧ (loadArtwork oracle s).state.loading = s.loading
        ∧ (loadArtwork oracle s).attemptsMade = 3
        ∧ (loadArtwork oracle s).delays = [200, 200])
    ∧ (boot.displayedArtwork = none ∧ boot.nextArtwork = none
        ∧ boot.loading = true)
    ∧ (k < 3 → (∀ i, i < k → fetchOutcome (oracle i) = none) →
        fetchOutcome (oracle k) = some a →
        (loadArtwork oracle s).attemptsMade = k + 1
        ∧ (loadArtwork oracle s).delays = List.replicate k 200
        ∧ (loadArtwork oracle s).state.nextArtwork = some ⟨s.nextRef, a⟩
        ∧ (loadArtwork oracle s).state.showInfo = true
        ∧ (loadArtwork oracle s).state.displayedArtwork = s.displayedArtwork) := by
  refine ⟨?_, ⟨rfl, rfl, rfl⟩, ?_⟩
  · intro h3
    have h0 := h3 0 (by omega)
    have h1 := h3 1 (by omega)
    have h2 := h3 2 (by omega)
    simp [loadArtwork, loadArtworkGo, h0, h1, h2]
  · intro hk hbefore hsucc
    interval_cases k
    · simp [loadArtwork, loadArtworkGo, hsucc]
    · have h0 := hbefore 0 (by omega)
      simp [loadArtwork, loadArtworkGo, h0, hsucc]
    · have h0 := hbefore 0 (by omega)
      have h1 := hbefore 1 (by omega)
      simp [loadArtwork, loadArtworkGo, h0, h1, hsucc]

/-- An oracle on which every `get_current_artwork` attempt rejects. -/
def oracleAllFail : Nat → FetchResult := fun _ => .failure

/-- An oracle that rejects twice, then resolves with `artSample` on
the third attempt. -/
def oracleThird : Nat → FetchResult :=
  fun i => if i = 2 then .value (some artSample) else .failure

/-- Witness for C5: all attempts failing leaves the mounted state
Empty with `loading` still true after exactly two 200 ms delays;
failing twice and succeeding on the third attempt uses all 3 attempts
and pends the third attempt's artwork. -/
theorem C5_witness :
    ((loadArtwork oracleAllFail boot).state.displayedArtwork = none
      ∧ (loadArtwork oracleAllFail boot).state.nextArtwork = none
      ∧ (loadArtwork oracleAllFail boot).state.loading = true
      ∧ (loadArtwork oracleAllFail boot).attemptsMade = 3
      ∧ (loadArtwork oracleAllFail boot).delays = [200, 200])
    ∧ ((loadArtwork oracleThird boot).attemptsMade = 3
      ∧ (loadArtwork oracleThird boot).delays = List.replicate 2 200
      ∧ (loadArtwork oracleThird boot).state.nextArtwork
          = some ⟨boot.nextRef, artSample⟩
      ∧ (loadArtwork oracleThird boot).state.showInfo = true
      ∧ (loadArtwork oracleThird boot).state.displayedArtwork
          = boot.displayedArtwork) := by
  constructor
  · have H := (C5_initial_load_retries oracleAllFail boot 0 artSample).1
      (fun i _ => rfl)
    exact ⟨H.1.trans rfl, H.2.1.trans rfl, H.2.2.1.trans rfl, H.2.2.2⟩
  · exact (C5_initial_load_retries oracleThird boot 2 artSample).2.2
      (by decide)
      (by decide)
      rfl

/-- C10: a `get_current_artwork` attempt that resolves with `null`
is treated by the loop exactly like a rejected attempt — only the
presence of a non-null artwork (`fetchOutcome`) influences anything
the loop does, so any two oracles with the same outcomes produce
identical runs (same attempts, same 200 ms delays, same final state);
three `null` results exhaust all 3 attempts with the two 200 ms
delays and leave the pending slot and `loading` untouched — at mount,
no pending artwork and `loading` still true. -/
theorem C10_null_result_consumes_attempt (o o' : Nat → FetchResult)
    (s : OverlayState) :
    ((∀ i, fetchOutcome (o i) = fetchOutcome (o' i)) →
        loadArtwork o s = loadArtwork o' s)
    ∧ ((∀ i, o i = FetchResult.value none) →
        (loadArtwork o s).state.nextArtwork = s.nextArtwork
        ∧ (loadArtwork o s).state.loading = s.loading
        ∧ (loadArtwork o s).state.displayedArtwork = s.displayedArtwork
        ∧ (loadArtwork o s).attemptsMade = 3
        ∧ (loadArtwork o s).delays = [200, 200]) := by
  constructor
  · intro h
    exact loadArtworkGo_congr o o' h 3 0 s
  · intro hnull
    have h0 : fetchOutcome (o 0) = none := by rw [hnull 0]; rfl
    have h1 : fetchOutcome (o 1) = none := by rw [hnull 1]; rfl
    have h2 : fetchOutcome (o 2) = none := by rw [hnull 2]; rfl
    simp [loadArtwork, loadArtworkGo, h0, h1, h2]

/-- The oracle on which every attempt resolves with `null`. -/
def oracleAllNull : Nat → FetchResult := fun _ => .value none

/-- Witness for C10: three `null` resolutions behave identically to
three rejections — the whole run is equal — and leave the mounted
controller with no pending artwork and `loading` still true after
3 attempts and two 200 ms delays. -/
theorem C10_witness :
    loadArtwork oracleAllNull boot = loadArtwork oracleAllFail boot
    ∧ ((loadArtwork oracleAllNull boot).state.nextArtwork = none
      ∧ (loadArtwork oracleAllNull boot).state.loading = true
      ∧ (loadArtwork oracleAllNull boot).attemptsMade = 3
      ∧ (loadArtwork oracleAllNull boot).delays = [200, 200]) := by
  constructor
  · exact (C10_null_result_consumes_attempt oracleAllNull oracleAllFail boot).1
      (fun i => rfl)
  · have H := (C10_null_result_consumes_attempt oracleAllNull oracleAllFail
      boot).2 (fun i => rfl)
    exact ⟨H.1.trans rfl, H.2.1.trans rfl, H.2.2.2⟩

/-! ## Duplicate notifications and the render guard -/

/-- Counterexample to C6: after `artSample` has been promoted to
`displayedArtwork`, a new `artwork-changed` notification carrying a
payload with the identical `id` (here: the identical artwork value)
still sets `nextArtwork` — the listener stores the payload
unconditionally — and the freshly delivered object is a different
reference from `displayedArtwork`, so the render guard
`nextArtwork !== displayedArtwork` holds and a new decode cycle
starts. -/
theorem C6_counterexample :
    (runEv boot [Ev.notify artSample, Ev.imageLoaded]).displayedArtwork
        = some ⟨0, artSample⟩
    ∧ (stepEv (runEv boot [Ev.notify artSample, Ev.imageLoaded])
        (Ev.notify artSample)).nextArtwork = some ⟨1, artSample⟩
    ∧ nextImageRendered
        (stepEv (runEv boot [Ev.notify artSample, Ev.imageLoaded])
          (Ev.notify artSample)) = true := by
  decide

/-- C6 amended: the `artwork-changed` listener never deduplicates.
In every reachable state, a notification sets `pending` to the
freshly referenced payload (whatever its `id`, identical to
`displayed`'s or not), leaves `displayed` untouched, and the render
guard then holds — reference inequality, the only suppression the
code has, never fires for a freshly delivered payload. -/
theorem C6_amended_no_dedup (pre : List Ev) (a : Artwork) :
    (stepEv (runEv boot pre) (Ev.notify a)).nextArtwork
        = some ⟨(runEv boot pre).nextRef, a⟩
    ∧ (stepEv (runEv boot pre) (Ev.notify a)).displayedArtwork
        = (runEv boot pre).displayedArtwork
    ∧ nextImageRendered (stepEv (runEv boot pre) (Ev.notify a)) = true := by
  have hwf : wfRefs (runEv boot pre) := wfRefs_runEv boot pre wfRefs_boot
  set s := runEv boot pre with hs
  have hp : (stepEv s (Ev.notify a)).nextArtwork = some ⟨s.nextRef, a⟩ := by
    simp [stepEv]
  refine ⟨hp, by simp [stepEv], ?_⟩
  rcases hdisp : s.displayedArtwork with _ | d
  · simp [nextImageRendered, hp, stepEv, hdisp]
  · have hlt : d.ref < s.nextRef := hwf.1 d (by simp [hdisp])
    simp [nextImageRendered, hp, stepEv, hdisp]
    omega

/-! ## Timer cancellation at teardown -/

lemma mem_overlayCleanup (s : OverlayState) (f : TimerEntry) :
    f ∈ (overlayCleanup s).liveTimers ↔
      f ∈ s.liveTimers
        ∧ (∀ h, s.infoTimer = some h → f.id ≠ h)
        ∧ (∀ h, s.safetyHandle = some h → f.id ≠ h) := by
  rcases hi : s.infoTimer with _ | hi' <;>
    rcases hsa : s.safetyHandle with _ | hs' <;>
      simp [overlayCleanup, overlayClearTimeout, hi, hsa, List.mem_filter,
        and_assoc] <;>
    intro _ <;> constructor <;> intro h <;> exact ⟨h.2, h.1⟩

/-- Counterexample to C7: teardown occurring while `loadArtwork` is
awaiting its 200 ms retry backoff (the sleep timer is armed exactly
as in `loadArtworkGo`, and its handle is stored nowhere the cleanup
can reach), and teardown of the settings panel after a successful
save.  The overlay cleanup clears the safety timer but the retry
sleep stays live; the settings panel has no cleanup at all, so the
2000 ms saved-indicator timer stays live. -/
theorem C7_counterexample :
    (overlayCleanup
        ((overlaySetTimeout TimerKind.retrySleep 200 boot).2)).liveTimers
      = [⟨1, TimerKind.retrySleep, 200⟩]
    ∧ (settingsTeardown (saveHotkey initSettings SaveResult.ok)).liveTimers
      = [⟨0, TimerKind.savedClear, 2000⟩] := by
  decide

/-- C7 amended: the overlay's `$effect` cleanup cancels exactly the
two timers whose handles it holds — the safety timeout and the armed
info-bar debounce (assuming, as in every reachable state, that live
safety/info-bar entries carry the stored handles); every other live
timer — the 200 ms retry backoff sleep — survives the cleanup; and
the settings panel performs no teardown cleanup at all, so the
2000 ms saved-indicator timer is never cancelled on teardown. -/
theorem C7_amended_cleanup (s : OverlayState) (e : TimerEntry)
    (t : SettingsState) :
    ((∀ f ∈ s.liveTimers, f.kind = TimerKind.safety →
          s.safetyHandle = some f.id) →
      (∀ f ∈ s.liveTimers, f.kind = TimerKind.infoBar →
          s.infoTimer = some f.id) →
      ∀ f ∈ (overlayCleanup s).liveTimers,
        f.kind ≠ TimerKind.safety ∧ f.kind ≠ TimerKind.infoBar)
    ∧ (e ∈ s.liveTimers → some e.id ≠ s.safetyHandle →
        some e.id ≠ s.infoTimer → e ∈ (overlayCleanup s).liveTimers)
    ∧ settingsTeardown t = t := by
  refine ⟨?_, ?_, rfl⟩
  · intro h1 h2 f hf
    rw [mem_overlayCleanup] at hf
    obtain ⟨hmem, hinfo, hsafe⟩ := hf
    constructor
    · intro hk
      exact hsafe f.id (h1 f hmem hk) rfl
    · intro hk
      exact hinfo f.id (h2 f hmem hk) rfl
  · intro hmem hne1 hne2
    rw [mem_overlayCleanup]
    refine ⟨hmem, ?_, ?_⟩
    · intro h hh heq
      exact hne2 (by rw [hh, heq])
    · intro h hh heq
      exact hne1 (by rw [hh, heq])

/-- Witness for C7's amended theorem, at the mid-retry overlay state
of the counterexample: after cleanup no safety or info-bar timer is
live, the armed retry sleep is still live, and settings teardown is
the identity. -/
theorem C7_amended_witness :
    (∀ f ∈ (overlayCleanup
        ((overlaySetTimeout TimerKind.retrySleep 200 boot).2)).liveTimers,
      f.kind ≠ TimerKind.safety ∧ f.kind ≠ TimerKind.infoBar)
    ∧ (⟨1, TimerKind.retrySleep, 200⟩ : TimerEntry) ∈ (overlayCleanup
        ((overlaySetTimeout TimerKind.retrySleep 200 boot).2)).liveTimers
    ∧ settingsTeardown (saveHotkey initSettings SaveResult.ok)
        = saveHotkey initSettings SaveResult.ok := by
  have H := C7_amended_cleanup
    ((overlaySetTimeout TimerKind.retrySleep 200 boot).2)
    ⟨1, TimerKind.retrySleep, 200⟩
    (saveHotkey initSettings SaveResult.ok)
  exact ⟨H.1 (by decide) (by decide),
    H.2.1 (by decide) (by decide) (by decide), H.2.2⟩

/-! ## Saving the hotkey -/

/-- C8: when `invoke("set_hotkey")` rejects, `saveHotkey` only
stores the error message — `saved` is not activated, no timer is
armed, and the working `hotkey` value is retained; when it resolves,
`saved` is set, the error is cleared, the working value is retained,
and a 2000 ms auto-clear timer is armed whose firing resets `saved`
to false (the handle hypothesis says live timers carry handles below
the allocation counter, true of every reachable state). -/
theorem C8_save_outcomes (s : SettingsState) (msg : String)
    (hw : ∀ f ∈ s.liveTimers, f.id < s.nextTimerId) :
    saveHotkey s (.error msg) = { s with error := msg }
    ∧ (saveHotkey s (.error msg)).saved = s.saved
    ∧ (saveHotkey s (.error msg)).hotkey = s.hotkey
    ∧ (saveHotkey s (.error msg)).liveTimers = s.liveTimers
    ∧ (saveHotkey s .ok).saved = true
    ∧ (saveHotkey s .ok).error = ""
    ∧ (saveHotkey s .ok).hotkey = s.hotkey
    ∧ (⟨s.nextTimerId, TimerKind.savedClear, 2000⟩ : TimerEntry)
        ∈ (saveHotkey s .ok).liveTimers
    ∧ (settingsFireTimer (saveHotkey s .ok) s.nextTimerId).saved = false := by
  refine ⟨rfl, rfl, rfl, rfl, rfl, rfl, rfl, ?_, ?_⟩
  · simp [saveHotkey, settingsSetTimeout]
  · have hnone : s.liveTimers.find?
        (fun e => decide (e.id = s.nextTimerId)) = none := by
      rw [List.find?_eq_none]
      intro f hf
      have := hw f hf
      simp
      omega
    have hfind : (saveHotkey s .ok).liveTimers.find?
        (fun e => decide (e.id = s.nextTimerId))
        = some ⟨s.nextTimerId, TimerKind.savedClear, 2000⟩ := by
      simp only [saveHotkey, settingsSetTimeout, List.find?_append, hnone]
      simp [List.find?]
    simp [settingsFireTimer, hfind]

/-- Witness for C8: from the initial settings state, a rejection
stores the message and leaves `saved` off and the hotkey intact; a
success turns `saved` on, arms the 2000 ms timer, and its firing
turns `saved` back off. -/
theorem C8_witness :
    saveHotkey initSettings (.error "set_hotkey failed")
        = { initSettings with error := "set_hotkey failed" }
    ∧ (saveHotkey initSettings (.error "set_hotkey failed")).saved = false
    ∧ (saveHotkey initSettings .ok).saved = true
    ∧ (⟨0, TimerKind.savedClear, 2000⟩ : TimerEntry)
        ∈ (saveHotkey initSettings .ok).liveTimers
    ∧ (settingsFireTimer (saveHotkey initSettings .ok) 0).saved = false := by
  have H := C8_save_outcomes initSettings "set_hotkey failed" (by decide)
  exact ⟨H.1, H.2.1, H.2.2.2.2.1, H.2.2.2.2.2.2.2.1, H.2.2.2.2.2.2.2.2⟩

/-! ## Info-bar debounce: timer well-formedness -/

/-- The live info-bar debounce timers. -/
def infoEntries (s : OverlayState) : List TimerEntry :=
  s.liveTimers.filter (fun f => decide (f.kind = TimerKind.infoBar))

/-- How many info-bar debounce timers are live. -/
def infoCount (s : OverlayState) : Nat := (infoEntries s).length

/-- Timer well-formedness, true of every reachable overlay state:
live handles are below the allocation counter and pairwise distinct,
the stored `infoTimer` and `safetyTimeout` handles are below the
counter, and every live info-bar entry is the one whose handle
`infoTimer` stores (and is not aliased by the safety handle). -/
def wfTimers (s : OverlayState) : Prop :=
  (∀ f ∈ s.liveTimers, f.id < s.nextTimerId)
  ∧ (s.liveTimers.map TimerEntry.id).Nodup
  ∧ (∀ h, s.infoTimer = some h → h < s.nextTimerId)
  ∧ (∀ h, s.safetyHandle = some h → h < s.nextTimerId)
  ∧ (∀ f ∈ s.liveTimers, f.kind = TimerKind.infoBar →
      s.infoTimer = some f.id ∧ s.safetyHandle ≠ some f.id)

lemma resetInfoTimer_liveTimers_none (s : OverlayState)
    (hi : s.infoTimer = none) :
    (resetInfoTimer s).liveTimers
      = s.liveTimers ++ [⟨s.nextTimerId, TimerKind.infoBar, 4000⟩] := by
  simp [resetInfoTimer, overlaySetTimeout, hi]

lemma resetInfoTimer_liveTimers_some (s : OverlayState) (h : Nat)
    (hi : s.infoTimer = some h) :
    (resetInfoTimer s).liveTimers
      = s.liveTimers.filter (fun e => e.id ≠ h)
          ++ [⟨s.nextTimerId, TimerKind.infoBar, 4000⟩] := by
  simp [resetInfoTimer, overlayClearTimeout, overlaySetTimeout, hi]

lemma overlayFireTimer_liveTimers (s : OverlayState) (h : Nat) :
    (overlayFireTimer s h).liveTimers = s.liveTimers
    ∨ (overlayFireTimer s h).liveTimers
        = s.liveTimers.filter (fun e => e.id ≠ h) := by
  unfold overlayFireTimer
  rcases hf : s.liveTimers.find? (fun e => e.id = h) with _ | ⟨i, k, m⟩
  · left; simp [hf]
  · right
    cases k <;> simp [hf]
    split <;> rfl

@[simp] lemma onImageLoaded_liveTimers (s : OverlayState) :
    (onImageLoaded s).liveTimers = s.liveTimers := by
  cases hs : s.shown <;> simp [onImageLoaded, hs]

@[simp] lemma onImageLoaded_nextTimerId (s : OverlayState) :
    (onImageLoaded s).nextTimerId = s.nextTimerId := by
  cases hs : s.shown <;> simp [onImageLoaded, hs]

@[simp] lemma onImageLoaded_infoTimer (s : OverlayState) :
    (onImageLoaded s).infoTimer = s.infoTimer := by
  cases hs : s.shown <;> simp [onImageLoaded, hs]

@[simp] lemma onImageLoaded_safetyHandle (s : OverlayState) :
    (onImageLoaded s).safetyHandle = s.safetyHandle := by
  cases hs : s.shown <;> simp [onImageLoaded, hs]

lemma wfTimers_congr (s s' : OverlayState)
    (h1 : s'.liveTimers = s.liveTimers)
    (h2 : s'.nextTimerId = s.nextTimerId)
    (h3 : s'.infoTimer = s.infoTimer)
    (h4 : s'.safetyHandle = s.safetyHandle)
    (hw : wfTimers s) : wfTimers s' := by
  unfold wfTimers
  rw [h1, h2, h3, h4]
  exact hw

lemma wfTimers_resetInfoTimer (s : OverlayState) (hw : wfTimers s) :
    wfTimers (resetInfoTimer s) := by
  obtain ⟨hb, hnd, hih, hsh, hio⟩ := hw
  have hsafe' : (resetInfoTimer s).safetyHandle = s.safetyHandle :=
    resetInfoTimer_safetyHandle s
  have hnid : (resetInfoTimer s).nextTimerId = s.nextTimerId + 1 :=
    resetInfoTimer_nextTimerId s
  rcases hi : s.infoTimer with _ | h0
  · have hl := resetInfoTimer_liveTimers_none s hi
    refine ⟨?_, ?_, ?_, ?_, ?_⟩
    · intro f hf
      rw [hl] at hf
      rw [hnid]
      rcases List.mem_append.mp hf with hf' | hf'
      · have := hb f hf'; omega
      · simp at hf'
        subst hf'
        simp
    · rw [hl, List.map_append, List.nodup_append]
      refine ⟨hnd, by simp, ?_⟩
      intro x hx
      simp only [List.mem_map] at hx
      obtain ⟨f, hf, hfx⟩ := hx
      have := hb f hf
      simp
      omega
    · intro h hh
      rw [resetInfoTimer_infoTimer] at hh
      rw [hnid]
      injection hh with hh'
      omega
    · intro h hh
      rw [hsafe'] at hh
      rw [hnid]
      have := hsh h hh
      omega
    · intro f hf hk
      rw [hl] at hf
      rcases List.mem_append.mp hf with hf' | hf'
      · have := (hio f hf' hk).1
        rw [hi] at this
        cases this
      · simp at hf'
        subst hf'
        refine ⟨by rw [resetInfoTimer_infoTimer], ?_⟩
        rw [hsafe']
        intro heq
        have := hsh s.nextTimerId heq
        omega
  · have hl := resetInfoTimer_liveTimers_some s h0 hi
    refine ⟨?_, ?_, ?_, ?_, ?_⟩
    · intro f hf
      rw [hl] at hf
      rw [hnid]
      rcases List.mem_append.mp hf with hf' | hf'
      · have := hb f (List.mem_of_mem_filter hf')
        omega
      · simp at hf'
        subst hf'
        simp
    · rw [hl, List.map_append, List.nodup_append]
      refine ⟨?_, by simp, ?_⟩
      · exact List.Nodup.sublist
          (List.Sublist.map _ (List.filter_sublist _)) hnd
      · intro x hx
        simp only [List.mem_map] at hx
        obtain ⟨f, hf, hfx⟩ := hx
        have := hb f (List.mem_of_mem_filter hf)
        simp
        omega
    · intro h hh
      rw [resetInfoTimer_infoTimer] at hh
      rw [hnid]
      injection hh with hh'
      omega
    · intro h hh
      rw [hsafe'] at hh
      rw [hnid]
      have := hsh h hh
      omega
    · intro f hf hk
      rw [hl] at hf
      rcases List.mem_append.mp hf with hf' | hf'
      · exfalso
        have hown := (hio f (List.mem_of_mem_filter hf') hk).1
        rw [hi] at hown
        injection hown with hown'
        have := List.of_mem_filter hf'
        simp at this
        exact this hown'.symm
      · simp at hf'
        subst hf'
        refine ⟨by rw [resetInfoTimer_infoTimer], ?_⟩
        rw [hsafe']
        intro heq
        have := hsh s.nextTimerId heq
        omega

lemma wfTimers_fireTimer (s : OverlayState) (h : Nat) (hw : wfTimers s) :
    wfTimers (overlayFireTimer s h) := by
  obtain ⟨hb, hnd, hih, hsh, hio⟩ := hw
  have hnid := overlayFireTimer_nextTimerId s h
  have hit := overlayFireTimer_infoTimer s h
  have hsa := overlayFireTimer_safetyHandle s h
  rcases overlayFireTimer_liveTimers s h with hl | hl
  · exact wfTimers_congr s _ hl hnid hit hsa ⟨hb, hnd, hih, hsh, hio⟩
  · refine ⟨?_, ?_, ?_, ?_, ?_⟩
    · intro f hf
      rw [hl] at hf
      rw [hnid]
      exact hb f (List.mem_of_mem_filter hf)
    · rw [hl]
      exact List.Nodup.sublist
        (List.Sublist.map _ (List.filter_sublist _)) hnd
    · intro x hx
      rw [hit] at hx
      rw [hnid]
      exact hih x hx
    · intro x hx
      rw [hsa] at hx
      rw [hnid]
      exact hsh x hx
    · intro f hf hk
      rw [hl] at hf
      have := hio f (List.mem_of_mem_filter hf) hk
      rw [hit, hsa]
      exact this

lemma wfTimers_step (s : OverlayState) (e : Ev) (hw : wfTimers s) :
    wfTimers (stepEv s e) := by
  cases e with
  | notify a =>
      have hw' : wfTimers
          { s with nextArtwork := some ⟨s.nextRef, a⟩, nextRef := s.nextRef + 1 } :=
        wfTimers_congr s _ rfl rfl rfl rfl hw
      exact wfTimers_resetInfoTimer _ hw'
  | imageLoaded =>
      by_cases hg : nextImageRendered s = true
      · have : stepEv s Ev.imageLoaded = onImageLoaded s := by simp [stepEv, hg]
        rw [this]
        exact wfTimers_congr s _ (onImageLoaded_liveTimers s)
          (onImageLoaded_nextTimerId s) (onImageLoaded_infoTimer s)
          (onImageLoaded_safetyHandle s) hw
      · simp [Bool.not_eq_true] at hg
        simpa [stepEv, hg] using hw
  | safetyFire =>
      rcases hh : s.safetyHandle with _ | h
      · simpa [stepEv, hh] using hw
      · simpa [stepEv, hh] using wfTimers_fireTimer s h hw
  | infoFire =>
      rcases hh : s.infoTimer with _ | h
      · simpa [stepEv, hh] using hw
      · simpa [stepEv, hh] using wfTimers_fireTimer s h hw
  | mouseMove => exact wfTimers_resetInfoTimer s hw
  | keyNext => exact wfTimers_congr s _ rfl rfl rfl rfl hw
  | keyPrev => exact wfTimers_congr s _ rfl rfl rfl rfl hw
  | keyEscape => exact wfTimers_congr s _ rfl rfl rfl rfl hw

lemma wfTimers_boot : wfTimers boot := by
  refine ⟨?_, ?_, ?_, ?_, ?_⟩
  · intro f hf
    simp [boot, mountOverlay, overlaySetTimeout, initOverlay] at hf
    simp [hf, boot, mountOverlay, overlaySetTimeout, initOverlay]
  · simp [boot, mountOverlay, overlaySetTimeout, initOverlay]
  · intro h hh
    simp [boot, mountOverlay, overlaySetTimeout, initOverlay] at hh
  · intro h hh
    simp [boot, mountOverlay, overlaySetTimeout, initOverlay] at hh
    simp [hh, boot, mountOverlay, overlaySetTimeout, initOverlay]
  · intro f hf hk
    simp [boot, mountOverlay, overlaySetTimeout, initOverlay] at hf
    rw [hf] at hk
    cases hk

lemma wfTimers_runEv (s : OverlayState) (es : List Ev) (hw : wfTimers s) :
    wfTimers (runEv s es) := by
  induction es generalizing s with
  | nil => exact hw
  | cons e rest ih => exact ih (stepEv s e) (wfTimers_step s e hw)

lemma length_le_one_of_nodup_const (l : List Nat) (c : Nat)
    (hnd : l.Nodup) (hc : ∀ x ∈ l, x = c) : l.length ≤ 1 := by
  match l with
  | [] => simp
  | [x] => simp
  | x :: y :: t =>
      exfalso
      have hx := hc x (by simp)
      have hy := hc y (by simp)
      have hxy : x ≠ y := by
        have := List.nodup_cons.mp hnd
        intro heq
        exact this.1 (by simp [heq])
      exact hxy (hx.trans hy.symm)

lemma infoCount_le_one (s : OverlayState) (hw : wfTimers s) :
    infoCount s ≤ 1 := by
  obtain ⟨hb, hnd, hih, hsh, hio⟩ := hw
  rcases hi : s.infoTimer with _ | h0
  · have hempty : infoEntries s = [] := by
      rw [infoEntries, List.filter_eq_nil_iff]
      intro f hf
      simp only [decide_eq_true_eq]
      intro hk
      have := (hio f hf hk).1
      rw [hi] at this
      cases this
    simp [infoCount, hempty]
  · have hsub : List.Sublist ((infoEntries s).map TimerEntry.id)
        (s.liveTimers.map TimerEntry.id) :=
      List.Sublist.map _ (List.filter_sublist _)
    have hnd' : ((infoEntries s).map TimerEntry.id).Nodup :=
      List.Nodup.sublist hsub hnd
    have hconst : ∀ x ∈ (infoEntries s).map TimerEntry.id, x = h0 := by
      intro x hx
      simp only [List.mem_map] at hx
      obtain ⟨f, hf, hfx⟩ := hx
      have hmem := List.mem_of_mem_filter hf
      have hkind := List.of_mem_filter hf
      simp only [decide_eq_true_eq] at hkind
      have := (hio f hmem hkind).1
      rw [hi] at this
      injection this with this'
      rw [← hfx, this']
    have := length_le_one_of_nodup_const _ h0 hnd' hconst
    simpa [infoCount, List.length_map] using this

lemma showInfo_false_only_infoFire (s : OverlayState) (e : Ev)
    (hw : wfTimers s) (h1 : s.showInfo = true)
    (h2 : (stepEv s e).showInfo = false) : e = Ev.infoFire := by
  cases e with
  | notify a => simp [stepEv] at h2
  | imageLoaded =>
      by_cases hg : nextImageRendered s = true
      · have hsi : (onImageLoaded s).showInfo = s.showInfo := by
          cases hs : s.shown <;> simp [onImageLoaded, hs]
        simp [stepEv, hg, hsi, h1] at h2
      · simp [Bool.not_eq_true] at hg
        simp [stepEv, hg, h1] at h2
  | safetyFire =>
      exfalso
      rcases hh : s.safetyHandle with _ | h
      · simp [stepEv, hh, h1] at h2
      · obtain ⟨hb, hnd, hih, hsh, hio⟩ := hw
        rcases hfind : s.liveTimers.find? (fun f => f.id = h) with _ | ⟨i, k, m⟩
        · simp [stepEv, hh, overlayFireTimer, hfind, h1] at h2
        · have hmem := List.mem_of_find?_eq_some hfind
          have hpred := List.find?_some hfind
          simp only [decide_eq_true_eq] at hpred
          cases k with
          | safety =>
              rcases hsn : s.shown <;>
                simp [stepEv, hh, overlayFireTimer, hfind, hsn, h1] at h2
          | infoBar =>
              have := (hio ⟨i, TimerKind.infoBar, m⟩ hmem rfl).2
              exact this (by rw [hh, hpred])
          | retrySleep =>
              simp [stepEv, hh, overlayFireTimer, hfind, h1] at h2
          | savedClear =>
              simp [stepEv, hh, overlayFireTimer, hfind, h1] at h2
  | infoFire => rfl
  | mouseMove => simp [stepEv] at h2
  | keyNext => simp [stepEv, h1] at h2
  | keyPrev => simp [stepEv, h1] at h2
  | keyEscape => simp [stepEv, h1] at h2

/-- C9: in every reachable overlay state, a qualifying activity — an
`artwork-changed` notification or pointer movement — sets the info
bar visible and arms a fresh 4000 ms countdown whose handle is
stored, first cancelling any previously armed countdown (no live
timer keeps the old handle); at most one info-bar countdown is live,
before and after; and visibility only ever turns false through the
info-bar countdown elapsing (`infoFire`), never through any other
event. -/
theorem C9_infobar_debounce (es : List Ev) (s : OverlayState)
    (a : Artwork) (e : Ev) (hs : s = runEv boot es) :
    ((stepEv s (Ev.notify a)).showInfo = true
      ∧ (stepEv s (Ev.notify a)).infoTimer = some s.nextTimerId
      ∧ (⟨s.nextTimerId, TimerKind.infoBar, 4000⟩ : TimerEntry)
          ∈ (stepEv s (Ev.notify a)).liveTimers)
    ∧ ((stepEv s Ev.mouseMove).showInfo = true
      ∧ (stepEv s Ev.mouseMove).infoTimer = some s.nextTimerId
      ∧ (⟨s.nextTimerId, TimerKind.infoBar, 4000⟩ : TimerEntry)
          ∈ (stepEv s Ev.mouseMove).liveTimers)
    ∧ (∀ h, s.infoTimer = some h →
        ∀ f ∈ (stepEv s Ev.mouseMove).liveTimers, f.id ≠ h)
    ∧ infoCount s ≤ 1
    ∧ infoCount (stepEv s Ev.mouseMove) ≤ 1
    ∧ (s.showInfo = true → (stepEv s e).showInfo = false →
        e = Ev.infoFire) := by
  have hw : wfTimers s := by
    rw [hs]; exact wfTimers_runEv boot es wfTimers_boot
  obtain ⟨hb, hnd, hih, hsh, hio⟩ := hw
  refine ⟨⟨by simp [stepEv], by simp [stepEv], ?_⟩,
    ⟨by simp [stepEv], by simp [stepEv], ?_⟩, ?_, ?_, ?_, ?_⟩
  · have hl := resetInfoTimer_liveTimers_none
      ({ s with nextArtwork := some ⟨s.nextRef, a⟩, nextRef := s.nextRef + 1 })
    have hl2 := resetInfoTimer_liveTimers_some
      ({ s with nextArtwork := some ⟨s.nextRef, a⟩, nextRef := s.nextRef + 1 })
    rcases hi : s.infoTimer with _ | h0
    · rw [show (stepEv s (Ev.notify a)).liveTimers
          = s.liveTimers ++ [⟨s.nextTimerId, TimerKind.infoBar, 4000⟩] from
          by simpa [stepEv, receiveArtwork] using hl hi]
      simp
    · rw [show (stepEv s (Ev.notify a)).liveTimers
          = s.liveTimers.filter (fun e => e.id ≠ h0)
              ++ [⟨s.nextTimerId, TimerKind.infoBar, 4000⟩] from
          by simpa [stepEv, receiveArtwork] using hl2 h0 hi]
      simp
  · rcases hi : s.infoTimer with _ | h0
    · rw [show (stepEv s Ev.mouseMove).liveTimers
          = s.liveTimers ++ [⟨s.nextTimerId, TimerKind.infoBar, 4000⟩] from
          by simpa [stepEv] using resetInfoTimer_liveTimers_none s hi]
      simp
    · rw [show (stepEv s Ev.mouseMove).liveTimers
          = s.liveTimers.filter (fun e => e.id ≠ h0)
              ++ [⟨s.nextTimerId, TimerKind.infoBar, 4000⟩] from
          by simpa [stepEv] using resetInfoTimer_liveTimers_some s h0 hi]
      simp
  · intro h hh f hf
    rw [show (stepEv s Ev.mouseMove).liveTimers
        = s.liveTimers.filter (fun e => e.id ≠ h)
            ++ [⟨s.nextTimerId, TimerKind.infoBar, 4000⟩] from
        by simpa [stepEv] using resetInfoTimer_liveTimers_some s h hh] at hf
    rcases List.mem_append.mp hf with hf' | hf'
    · have := List.of_mem_filter hf'
      simpa using this
    · simp at hf'
      rw [hf']
      have := hih h hh
      simp
      omega
  · exact infoCount_le_one s ⟨hb, hnd, hih, hsh, hio⟩
  · exact infoCount_le_one _
      (wfTimers_step s Ev.mouseMove ⟨hb, hnd, hih, hsh, hio⟩)
  · intro h1 h2
    exact showInfo_false_only_infoFire s e ⟨hb, hnd, hih, hsh, hio⟩ h1 h2

/-- Witness for C9 at the state reached by one pointer movement
after mount: a further pointer movement keeps visibility true,
rearms a fresh 4000 ms countdown and cancels the previous handle;
at most one countdown is live; and the elapse event is the only one
that hides the bar. -/
theorem C9_witness :
    ((stepEv (runEv boot [Ev.mouseMove]) (Ev.notify artSample)).showInfo = true
      ∧ (stepEv (runEv boot [Ev.mouseMove]) (Ev.notify artSample)).infoTimer
          = some (runEv boot [Ev.mouseMove]).nextTimerId
      ∧ (⟨(runEv boot [Ev.mouseMove]).nextTimerId, TimerKind.infoBar, 4000⟩
            : TimerEntry)
          ∈ (stepEv (runEv boot [Ev.mouseMove])
              (Ev.notify artSample)).liveTimers)
    ∧ infoCount (runEv boot [Ev.mouseMove]) ≤ 1
    ∧ Ev.infoFire = Ev.infoFire := by
  have H := C9_infobar_debounce [Ev.mouseMove] (runEv boot [Ev.mouseMove])
    artSample Ev.infoFire rfl
  exact ⟨H.1, H.2.2.2.1,
    H.2.2.2.2.2 (by decide) (by decide)⟩
